import Mathlib

/-!
Verification of the Claude account batch-checker (`account_check/web-server.js`,
which bundles the web validation server and the CLI batch tester
`check-claude-cli-accounts.js`).

The JavaScript is embedded shallowly: buffers and messages are Lean `String`s,
the JS `String.prototype.includes` test is `jsIncludes`, exit codes are
`Option Int` (`none` models the `null` code delivered when the child is killed
by a signal), and the event-driven probe (`testSingleModel`) is a step machine
over an explicit event list.
-/

namespace AccountCheck

/-- Test whether `pat` is an initial segment of `hay`. -/
def subAt : List Char → List Char → Bool
  | [], _ => true
  | _ :: _, [] => false
  | p :: ps, h :: hs => p == h && subAt ps hs

/-- Test whether `pat` occurs contiguously inside `hay`;
this is the semantics of JavaScript `hay.includes(pat)`. -/
def occursIn (pat : List Char) : List Char → Bool
  | [] => subAt pat []
  | h :: t => subAt pat (h :: t) || occursIn pat t

/-- JS `s.includes(pat)`. -/
def jsIncludes (s pat : String) : Bool :=
  occursIn pat.data s.data

/-- Lower-casing of a string, character by character (JS `toLowerCase`,
restricted to the simple one-to-one case mapping). -/
def lowerStr (s : String) : String :=
  ⟨s.data.map Char.toLower⟩

/-- Case-insensitive containment, used only to express the spec claim that the
success test is case-insensitive. -/
def jsIncludesCI (s pat : String) : Bool :=
  occursIn (lowerStr pat).data (lowerStr s).data

/-- JS `s.trim()`: strip leading and trailing whitespace. -/
def jsTrim (s : String) : String :=
  ⟨((s.data.dropWhile Char.isWhitespace).reverse.dropWhile Char.isWhitespace).reverse⟩

/-- JS `s.startsWith(pat)`. -/
def jsStartsWith (s pat : String) : Bool :=
  subAt pat.data s.data

/-- JS `String(x)` for a nullable exit code: `null` prints as "null". -/
def codeToString : Option Int → String
  | none => "null"
  | some c => toString c

/-- Probe status values taken by `result.status` in `testSingleModel` /
`testAccountDirect`. -/
inductive ProbeStatus
  | testing
  | success
  | failed
  | skipped
  deriving DecidableEq

/-- The result object built by `testSingleModel` (CLI variant, and the web
variant shares every field but `actualModel`). -/
structure ProbeResult where
  model : String
  status : ProbeStatus
  responseTime : Nat
  error : Option String
  response : Option String
  speed : Option String
  actualModel : Option String
  errorType : Option String
  deriving DecidableEq

/-- Speed label assigned on success from the elapsed milliseconds. -/
def speedLabel (t : Nat) : String :=
  if t < 3000 then "⚡ 极快"
  else if t < 8000 then "🚀 快速"
  else if t < 15000 then "🐢 较慢"
  else "🐌 很慢"

/-- The success condition of the `close` handler:
checking exit code 0, non-empty stdout, and stdout free of the two
literal casings of the word error. -/
def successCond (code : Option Int) (output : String) : Bool :=
  code == some 0 && output.length > 0 &&
    !(jsIncludes output "Error") && !(jsIncludes output "error")

/-- Failure analysis of the CLI variant of `testSingleModel`: the
`errorType`/`error` pair chosen from the combined `stderr + stdout` buffer and
the exit code (lines 581-602 of the source). -/
def errTypeOf (combined : String) (code : Option Int) : String × String :=
  if jsIncludes combined "authentication" || jsIncludes combined "unauthorized" ||
      jsIncludes combined "401" then
    ("认证失败", "API Key 无效或过期")
  else if jsIncludes combined "rate limit" || jsIncludes combined "429" then
    ("限流", "请求过于频繁")
  else if jsIncludes combined "permission" || jsIncludes combined "403" then
    ("无权限", "无权限访问该模型")
  else if jsIncludes combined "connection" || jsIncludes combined "network" then
    ("连接错误", "网络连接失败")
  else if jsIncludes combined "model" || jsIncludes combined "not found" then
    ("模型不存在", "指定的模型不存在或不可用")
  else if code != some 0 then
    ("CLI错误", "Claude CLI 退出码: " ++ codeToString code)
  else
    ("未知错误", if jsTrim combined == "" then "没有收到有效响应" else jsTrim combined)

/-- The `close` handler of the CLI `testSingleModel`: given accumulated stdout
and stderr, the exit code and the elapsed time, build the resolved result. -/
def closeHandler (modelName output errorOutput : String) (code : Option Int)
    (elapsed : Nat) : ProbeResult :=
  if successCond code output then
    { model := modelName
      status := .success
      responseTime := elapsed
      error := none
      response := some ((jsTrim output).take 200)
      speed := some (speedLabel elapsed)
      actualModel :=
        if jsIncludes (lowerStr output) "sonnet" ||
            jsIncludes (lowerStr output) "claude-3" then
          some "detected-from-response"
        else none
      errorType := none }
  else
    let combined := errorOutput ++ output
    let te := errTypeOf combined code
    { model := modelName
      status := .failed
      responseTime := elapsed
      error := some te.2
      response := none
      speed := none
      actualModel := none
      errorType := some te.1 }

/-- Result produced when the timeout timer fires first. -/
def timeoutResult (modelName : String) (elapsed : Nat) : ProbeResult :=
  { model := modelName
    status := .failed
    responseTime := elapsed
    error := some "响应超时"
    response := none
    speed := none
    actualModel := none
    errorType := some "超时" }

/-- Result produced by the `error` (spawn failure) handler. -/
def spawnErrorResult (modelName msg : String) (elapsed : Nat) : ProbeResult :=
  { model := modelName
    status := .failed
    responseTime := elapsed
    error := some ("无法启动 Claude CLI: " ++ msg)
    response := none
    speed := none
    actualModel := none
    errorType := some "CLI启动失败" }

/-! ### Event machine for one `testSingleModel` call

A probe call arms several asynchronous handlers: the stdout/stderr `data`
handlers, the timeout timer, the `close` and `error` handlers of the child,
and the one-second stdin warm-up timer.  Node delivers these callbacks
sequentially; a run of the probe is the processing of one list of events. -/

/-- Events delivered to the handlers of one probe call.  Resolving events
carry the `Date.now() - startTime` value observed by the handler. -/
inductive PEvent
  | dataOut (s : String)
  | dataErr (s : String)
  | timerFire (now : Nat)
  | closeEvt (code : Option Int) (now : Nat)
  | errEvt (msg : String) (now : Nat)
  | stdinTimer
  deriving DecidableEq

/-- Mutable state of one probe call: the two accumulation buffers and the
`hasResponded` flag. -/
structure PState where
  output : String
  errorOutput : String
  hasResponded : Bool
  deriving DecidableEq

/-- Externally visible actions of the handlers. -/
inductive PAction
  | resolve (r : ProbeResult)
  | writeStdin
  | killChild
  deriving DecidableEq

/-- One handler invocation: the state update and the actions it performs. -/
def pstep (modelName : String) (st : PState) : PEvent → PState × List PAction
  | .dataOut s => ({ st with output := st.output ++ s }, [])
  | .dataErr s => ({ st with errorOutput := st.errorOutput ++ s }, [])
  | .timerFire now =>
    if st.hasResponded then (st, [])
    else ({ st with hasResponded := true },
      [.killChild, .resolve (timeoutResult modelName now)])
  | .closeEvt code now =>
    if st.hasResponded then (st, [])
    else ({ st with hasResponded := true },
      [.resolve (closeHandler modelName st.output st.errorOutput code now)])
  | .errEvt msg now =>
    if st.hasResponded then (st, [])
    else ({ st with hasResponded := true },
      [.resolve (spawnErrorResult modelName msg now)])
  | .stdinTimer =>
    if st.hasResponded then (st, []) else (st, [.writeStdin])

/-- Sequential processing of an event list. -/
def prun (modelName : String) (st : PState) : List PEvent → PState × List PAction
  | [] => (st, [])
  | e :: rest =>
    let s1 := pstep modelName st e
    let s2 := prun modelName s1.1 rest
    (s2.1, s1.2 ++ s2.2)

/-- Initial state of a probe call. -/
def initPState : PState := ⟨"", "", false⟩

/-- The resolutions among a list of actions. -/
def resolutions (acts : List PAction) : List ProbeResult :=
  acts.filterMap fun a => match a with
    | .resolve r => some r
    | _ => none

/-- Events whose handler resolves the promise when it wins the race. -/
def isResolving : PEvent → Bool
  | .timerFire _ => true
  | .closeEvt _ _ => true
  | .errEvt _ _ => true
  | _ => false

/-! ### Account validation (`testAccountDirect`) -/

/-- One input account record. -/
structure Account where
  name : String
  url : String
  key : String
  deriving DecidableEq

/-- Overall per-account status. -/
inductive Overall
  | testing
  | both_success
  | sonnet_only
  | both_failed
  deriving DecidableEq

/-- The per-account result object assembled by `testAccountDirect`. -/
structure AccountResult where
  name : String
  url : String
  key : String
  fullKey : String
  sonnet4 : ProbeResult
  opus41 : ProbeResult
  overallStatus : Overall
  deriving DecidableEq

/-- Primary (cheaper) model identifier. -/
def sonnetModel : String := "claude-sonnet-4-20250514"

/-- Secondary (more expensive) model identifier. -/
def opusModel : String := "claude-opus-4-1-20250805"

/-- The placeholder secondary result used when the primary probe failed. -/
def skippedOpusResult : ProbeResult :=
  { model := opusModel
    status := .skipped
    responseTime := 0
    error := some "Sonnet 4 测试失败，跳过此测试"
    response := none
    speed := none
    actualModel := none
    errorType := some "跳过测试" }

/-- The function `testAccountDirect`: run the primary probe, then the secondary probe only
on primary success.  `probe` gives the result each spawned probe resolves
with; the second component records the model names actually spawned, in
spawn order. -/
def testAccountDirect (account : Account) (probe : String → ProbeResult) :
    AccountResult × List String :=
  let s := probe sonnetModel
  if s.status = .success then
    let o := probe opusModel
    ({ name := account.name
       url := account.url
       key := account.key.take 10 ++ "..."
       fullKey := account.key
       sonnet4 := s
       opus41 := o
       overallStatus := if o.status = .success then .both_success else .sonnet_only },
     [sonnetModel, opusModel])
  else
    ({ name := account.name
       url := account.url
       key := account.key.take 10 ++ "..."
       fullKey := account.key
       sonnet4 := s
       opus41 := skippedOpusResult
       overallStatus := .both_failed },
     [sonnetModel])

/-! ### Command-line / environment configuration (`parseArgs`) -/

/-- JS `parseInt` on the reachable inputs: skip leading whitespace, optional
sign, then leading decimal digits; `none` models `NaN`. -/
def parseIntJS (s : String) : Option Int :=
  let cs := s.data.dropWhile Char.isWhitespace
  match cs with
  | '-' :: rest => (parseDigits rest).map fun n => -(n : Int)
  | '+' :: rest => (parseDigits rest).map fun n => (n : Int)
  | _ => (parseDigits cs).map fun n => (n : Int)
where
  parseDigits (cs : List Char) : Option Nat :=
    let ds := cs.takeWhile Char.isDigit
    if ds.isEmpty then none
    else some (ds.foldl (fun a c => a * 10 + (c.toNat - 48)) 0)

/-- The webhook URL baked into the source as the default option value. -/
def defaultDingTalkWebhook : String :=
  "https://oapi.dingtalk.com/robot/send?access_token=6f26248ec006cdd90c2886d956b7570cb9b06a24ef5065497658472ca43942b5"

/-- The options record of `parseArgs`.  String fields use `""` where the JS
holds `null` and tests truthiness; `Option` fields start as JS `null`. -/
structure Options where
  configFile : String
  timeout : Option Int
  parallel : Option Int
  verbose : Bool
  dingTalkWebhook : String
  dingTalkSecret : Option String
  dingTalkAtAll : Bool
  dingTalkAlways : Bool
  deriving DecidableEq

/-- Initial option values, before the argv loop. -/
def defaultOptions : Options :=
  { configFile := ""
    timeout := some 45000
    parallel := some 1
    verbose := false
    dingTalkWebhook := defaultDingTalkWebhook
    dingTalkSecret := none
    dingTalkAtAll := false
    dingTalkAlways := false }

/-- Effect of one argv token when no truthy successor value is available for
it: the boolean flags fire, a non-flag token becomes the config file, and
everything else (including a value-taking flag with a missing or empty value)
falls through the `else if` chain without effect. -/
def parseTok (o : Options) (a : String) : Options :=
  if a == "--verbose" then { o with verbose := true }
  else if a == "--dingtalk-at-all" then { o with dingTalkAtAll := true }
  else if a == "--dingtalk-always" then { o with dingTalkAlways := true }
  else if !(jsStartsWith a "--") then { o with configFile := a }
  else o

/-- The argv scanning loop of `parseArgs`.  A value-taking flag consumes its
successor only when that successor is a truthy (non-empty) string, exactly as
the `args[i] === FLAG && args[i + 1]` tests do; otherwise the token is
processed alone and the scan moves one position forward. -/
def parseLoop (o : Options) : List String → Options
  | [] => o
  | [a] => parseTok o a
  | a :: b :: rest =>
    if a == "--timeout" && b != "" then
      parseLoop { o with timeout := parseIntJS b } rest
    else if a == "--parallel" && b != "" then
      parseLoop { o with parallel := parseIntJS b } rest
    else if a == "--dingtalk-webhook" && b != "" then
      parseLoop { o with dingTalkWebhook := b } rest
    else if a == "--dingtalk-secret" && b != "" then
      parseLoop { o with dingTalkSecret := some b } rest
    else
      parseLoop (parseTok o a) (b :: rest)

/-- The function `parseArgs`: scan argv, abort (`none`, modelling `process.exit(1)`) when no
config file was named, then apply the environment fallbacks for the DingTalk
webhook and secret. -/
def parseArgs (args : List String) (envWebhook envSecret : Option String) :
    Option Options :=
  let o := parseLoop defaultOptions args
  if o.configFile == "" then none
  else
    let o1 :=
      match envWebhook with
      | some w => if o.dingTalkWebhook == "" && w != "" then { o with dingTalkWebhook := w } else o
      | none => o
    let o2 :=
      match envSecret with
      | some sec => if o1.dingTalkSecret == none && sec != "" then { o1 with dingTalkSecret := some sec } else o1
      | none => o1
    some o2

/-! ### Batch execution (`batchTest`)

The chunking loop `for (let i = 0; i < accounts.length; i += options.parallel)`
is embedded with explicit fuel (the loop diverges in JS when `parallel = 0`;
all theorems assume a positive bound).  `Promise.all` is modelled by an
arrival list: pairs `(index, result)` listed in completion order; the promise
combinator collects values positionally by index. -/

/-- Fuelled chunking: `l.slice(i, i + P)` pushed per iteration. -/
def buildChunksAux (P : Nat) : Nat → List α → List (List α)
  | 0, _ => []
  | _, [] => []
  | fuel + 1, l => l.take P :: buildChunksAux P fuel (l.drop P)

/-- The chunk list built by `batchTest`. -/
def buildChunks (l : List α) (P : Nat) : List (List α) :=
  buildChunksAux P l.length l

/-- Positional lookup of completion index `j` in an arrival list. -/
def jlookup (j : Nat) : List (Nat × β) → Option β
  | [] => none
  | (i, b) :: rest => if i = j then some b else jlookup j rest

/-- Model of `Promise.all` over a chunk of size `n`: collect the `n` settled values by
index, regardless of the order in which they arrived. -/
def promiseAll (n : Nat) (arr : List (Nat × β)) : List (Option β) :=
  (List.range n).map fun j => jlookup j arr

/-- The canonical (in-order) arrival list of a chunk under validator `f`. -/
def chunkArrival (f : α → β) (chunk : List α) : List (Nat × β) :=
  (chunk.map f).enum

/-- The sequential chunk loop of `batchTest`: the promise output of each
chunk is appended in chunk order. -/
def batchRun (chunks : List (List α)) (arrivals : List (List (Nat × β))) :
    List (Option β) :=
  (List.zipWith (fun c a => promiseAll c.length a) chunks arrivals).flatten

/-- Execution trace of the chunk loop: every unit of work tagged with the
index of the chunk it belongs to, in execution order. -/
def chunkTraceAux (k : Nat) : List (List α) → List (Nat × α)
  | [] => []
  | c :: rest => c.map (fun a => (k, a)) ++ chunkTraceAux (k + 1) rest

/-- Execution trace of `batchTest` starting at chunk 0. -/
def chunkTrace (chunks : List (List α)) : List (Nat × α) :=
  chunkTraceAux 0 chunks

/-! ### Report persistence (`saveResults`) -/

/-- CSV field quoting: wrap in double quotes when the field contains a comma. -/
def quoteField (s : String) : String :=
  if jsIncludes s "," then "\"" ++ s ++ "\"" else s

/-- One CSV row written by `saveResults`:
`name,url,fullKey,sonnet4-status,opus4-status`. -/
def csvRow (r : AccountResult) : String :=
  let s4 := if r.sonnet4.status = .success then "通过" else "失败"
  let o4 :=
    if r.opus41.status = .success then "通过"
    else if r.opus41.status = .skipped then "跳过" else "失败"
  quoteField r.name ++ "," ++ quoteField r.url ++ "," ++ quoteField r.fullKey ++
    "," ++ s4 ++ "," ++ o4

/-! ### Notification message (`buildNotificationMessage`) -/

/-- Aggregate counts computed in `generateReport` and threaded to the
notification builder. -/
structure Stats where
  total : Nat
  both_success : Nat
  sonnet_only : Nat
  both_failed : Nat
  deriving DecidableEq

/-- The fully-failed accounts, in result order. -/
def bothFailedOf (results : List AccountResult) : List AccountResult :=
  results.filter fun r => r.overallStatus == .both_failed

/-- The accounts where only the primary model passed, in result order. -/
def sonnetOnlyOf (results : List AccountResult) : List AccountResult :=
  results.filter fun r => r.overallStatus == .sonnet_only

/-- Error excerpt shown for a fully-failed account: the first 30 characters
of the recorded error when it is truthy, a default label otherwise. -/
def failedErrMsg (acc : AccountResult) : String :=
  match acc.sonnet4.error with
  | some e => if e == "" then "未知错误" else e.take 30
  | none => "未知错误"

/-- Error excerpt shown for a partial-failure account (Opus error). -/
def opusErrMsg (acc : AccountResult) : String :=
  match acc.opus41.error with
  | some e => if e == "" then "未知错误" else e.take 30
  | none => "未知错误"

/-- The successive pieces appended to the markdown text of the DingTalk
notification, kept structured so the message content can be reasoned about. -/
inductive NLine
  | successText (stats : Stats)
  | alertHeader (stats : Stats)
  | failedHeader (n : Nat)
  | failedEntry (name url err : String)
  | failedRemainder (n : Nat)
  | sonnetOnlyHeader (n : Nat)
  | sonnetOnlyEntry (name err : String)
  | sonnetOnlyRemainder (n : Nat)
  | footer
  deriving DecidableEq

/-- Message assembly from the two filtered account lists: a success message
when nothing failed, otherwise header, the first 10 fully-failed accounts
(plus a remainder count), the first 10 partial-failure accounts (plus a
remainder count), and a footer. -/
def notificationLinesCore (bf so : List AccountResult) (stats : Stats) :
    List NLine :=
  if bf.length == 0 && so.length == 0 then [.successText stats]
  else
    [.alertHeader stats] ++
    (if 0 < bf.length then
      [.failedHeader bf.length] ++
        (bf.take 10).map (fun a => .failedEntry a.name a.url (failedErrMsg a)) ++
        (if 10 < bf.length then [.failedRemainder (bf.length - 10)] else [])
    else []) ++
    (if 0 < so.length then
      [.sonnetOnlyHeader so.length] ++
        (so.take 10).map (fun a => .sonnetOnlyEntry a.name (opusErrMsg a)) ++
        (if 10 < so.length then [.sonnetOnlyRemainder (so.length - 10)] else [])
    else []) ++
    [.footer]

/-- The function `buildNotificationMessage`, as the ordered list of text pieces. -/
def buildNotificationLines (results : List AccountResult) (stats : Stats) :
    List NLine :=
  notificationLinesCore (bothFailedOf results) (sonnetOnlyOf results) stats

/-- Rendering of one message piece to the literal markdown fragment appended
by the source (`ts` is the formatted wall-clock timestamp). -/
def renderNLine (ts : String) : NLine → String
  | .successText st =>
    "## ✅ Claude账号测试全部通过\n\n📅 **测试时间**: " ++ ts ++
      "  \n📊 **测试结果**: \n- 总账号数: " ++ toString st.total ++
      "个\n- 双模型通过: " ++ toString st.both_success ++
      "个 🎉\n\n🎯 所有账号运行正常！"
  | .alertHeader st =>
    "## 🚨 Claude账号测试告警报告\n\n📅 **测试时间**: " ++ ts ++
      "  \n📊 **测试概况**: \n- 总账号数: " ++ toString st.total ++
      "个\n- 双模型通过: " ++ toString st.both_success ++
      "个 ✅\n- 仅Sonnet4通过: " ++ toString st.sonnet_only ++
      "个 ⚠️  \n- 完全失败: " ++ toString st.both_failed ++ "个 ❌\n\n---"
  | .failedHeader n => "\n❌ **完全失败账号** (" ++ toString n ++ "个):"
  | .failedEntry name url err =>
    "\n• **" ++ name ++ "**: " ++ url ++ " → " ++ err
  | .failedRemainder n => "\n• 还有 " ++ toString n ++ " 个账号失败..."
  | .sonnetOnlyHeader n => "\n\n⚠️ **部分失败账号** (" ++ toString n ++ "个):"
  | .sonnetOnlyEntry name err => "\n• **" ++ name ++ "**: Opus4.1 " ++ err
  | .sonnetOnlyRemainder n => "\n• 还有 " ++ toString n ++ " 个账号部分失败..."
  | .footer => "\n\n⏰ 请及时处理失败账号！"

/-- The full markdown text of the notification. -/
def renderNotificationText (results : List AccountResult) (stats : Stats)
    (ts : String) : String :=
  String.join ((buildNotificationLines results stats).map (renderNLine ts))

/-- Account names appearing as fully-failed entries of the message. -/
def failedEntryName : NLine → Option String
  | .failedEntry name _ _ => some name
  | _ => none

/-- Account names appearing as partial-failure entries of the message. -/
def sonnetOnlyEntryName : NLine → Option String
  | .sonnetOnlyEntry name _ => some name
  | _ => none

/-! ### Spec-side definitions

These follow the wording of the specification (not the source) and exist only
to be compared against the embedded code. -/

/-- Spec wording of the probe success test: exit code 0, non-empty stdout, and
neither buffer case-insensitively contains "error". -/
def specSuccessCond (code : Option Int) (stdout stderr : String) : Bool :=
  code == some 0 && stdout.length > 0 &&
    !(jsIncludesCI stdout "error") && !(jsIncludesCI stderr "error")

/-- The error taxonomy named by the spec for a failed, exited probe. -/
inductive ErrKind
  | authFailed
  | rateLimited
  | forbidden
  | networkError
  | modelUnavailable
  | processError (code : Option Int)
  | unknownKind
  deriving DecidableEq

/-- Whether any of the listed substrings occurs in `c`. -/
def matchesAny (c : String) (pats : List String) : Bool :=
  pats.any fun p => jsIncludes c p

/-- Spec wording of failure classification: scan stderr+stdout for substring
groups in priority order, first match wins, then non-zero exit code, else
unknown. -/
def specScanKind (combined : String) (code : Option Int) : ErrKind :=
  if matchesAny combined ["authentication", "unauthorized", "401"] then .authFailed
  else if matchesAny combined ["rate limit", "429"] then .rateLimited
  else if matchesAny combined ["permission", "403"] then .forbidden
  else if matchesAny combined ["connection", "network"] then .networkError
  else if matchesAny combined ["model", "not found"] then .modelUnavailable
  else if code != some 0 then .processError code
  else .unknownKind

/-- The `errorType` label the source uses for each spec error kind. -/
def kindErrorType : ErrKind → String
  | .authFailed => "认证失败"
  | .rateLimited => "限流"
  | .forbidden => "无权限"
  | .networkError => "连接错误"
  | .modelUnavailable => "模型不存在"
  | .processError _ => "CLI错误"
  | .unknownKind => "未知错误"

/-! ### Web-server variant of the probe

The repository bundles a second `testSingleModel` in the web server.  It
shares the success condition and the first four classification groups, but it
has no model / not-found group and no exit-code group, installs no spawn
error handler, and its stdin warm-up callback writes unconditionally, with no
resolution guard and no try/catch. -/

/-- Failure analysis of the web-server variant of `testSingleModel`. -/
def errTypeOfWeb (combined : String) : String × String :=
  if jsIncludes combined "authentication" || jsIncludes combined "unauthorized" ||
      jsIncludes combined "401" then
    ("认证失败", "API Key 无效或过期")
  else if jsIncludes combined "rate limit" || jsIncludes combined "429" then
    ("限流", "请求过于频繁")
  else if jsIncludes combined "permission" || jsIncludes combined "403" then
    ("无权限", "无权限访问该模型")
  else if jsIncludes combined "connection" || jsIncludes combined "network" then
    ("连接错误", "网络连接失败")
  else
    ("未知错误", if combined.take 100 == "" then "未知错误" else combined.take 100)

/-- The close handler of the web-server variant of `testSingleModel`. -/
def closeHandlerWeb (modelName output errorOutput : String) (code : Option Int)
    (elapsed : Nat) : ProbeResult :=
  if successCond code output then
    { model := modelName
      status := .success
      responseTime := elapsed
      error := none
      response := some ((jsTrim output).take 200)
      speed := some (speedLabel elapsed)
      actualModel := none
      errorType := none }
  else
    let te := errTypeOfWeb (errorOutput ++ output)
    { model := modelName
      status := .failed
      responseTime := elapsed
      error := some te.2
      response := none
      speed := none
      actualModel := none
      errorType := some te.1 }

/-- One handler invocation of the web-server probe: the stdin warm-up
callback writes unconditionally and no spawn error handler is installed. -/
def pstepWeb (modelName : String) (st : PState) : PEvent → PState × List PAction
  | .dataOut s => ({ st with output := st.output ++ s }, [])
  | .dataErr s => ({ st with errorOutput := st.errorOutput ++ s }, [])
  | .timerFire now =>
    if st.hasResponded then (st, [])
    else ({ st with hasResponded := true },
      [.killChild, .resolve (timeoutResult modelName now)])
  | .closeEvt code now =>
    if st.hasResponded then (st, [])
    else ({ st with hasResponded := true },
      [.resolve (closeHandlerWeb modelName st.output st.errorOutput code now)])
  | .errEvt _ _ => (st, [])
  | .stdinTimer => (st, [.writeStdin])

/-- Sequential processing of an event list by the web-server probe. -/
def prunWeb (modelName : String) (st : PState) :
    List PEvent → PState × List PAction
  | [] => (st, [])
  | e :: rest =>
    let s1 := pstepWeb modelName st e
    let s2 := prunWeb modelName s1.1 rest
    (s2.1, s1.2 ++ s2.2)

/-- Concrete account list used by the C6 witness. -/
def witAccounts : List Account :=
  [⟨"a1", "u1", "k1"⟩, ⟨"a2", "u2", "k2"⟩, ⟨"a3", "u3", "k3"⟩]

/-- Concrete validator used by the C6 witness (all probes time out). -/
def witF : Account → AccountResult :=
  fun a => (testAccountDirect a (fun _ => timeoutResult opusModel 1)).1

/-- Concrete arrival schedule for the C6 witness: within the first chunk the
second account completes before the first. -/
def witArrivals : List (List (Nat × AccountResult)) :=
  [[(1, witF ⟨"a2", "u2", "k2"⟩), (0, witF ⟨"a1", "u1", "k1"⟩)],
   [(0, witF ⟨"a3", "u3", "k3"⟩)]]

/-! ### Probe classification theorems (C1, C5) -/

/-- The status resolved by the close handler is decided by `successCond`. -/
theorem closeHandler_status (m out err : String) (code : Option Int) (t : Nat) :
    (closeHandler m out err code t).status =
      if successCond code out then ProbeStatus.success else ProbeStatus.failed := by
  unfold closeHandler
  split <;> rfl

/-- C1 (counterexample): with exit code 0, stdout "ok" and stderr
"error: boom", the close handler resolves with status Success even though the
stderr buffer case-insensitively contains "error", so the claimed
characterization of Success is false. -/
theorem c1_counterexample :
    (closeHandler sonnetModel "ok" "error: boom" (some 0) 100).status =
        ProbeStatus.success ∧
      specSuccessCond (some 0) "ok" "error: boom" = false := by
  constructor
  · decide
  · decide

/-- C1 (amended): for a probe resolved by the close handler, the status is
Success iff the exit code is 0, the accumulated stdout is non-empty, and the
stdout buffer contains neither "Error" nor "error" as a case-sensitive
substring; the stderr buffer and other casings are not consulted. -/
theorem c1_amended (m out err : String) (code : Option Int) (t : Nat) :
    (closeHandler m out err code t).status = ProbeStatus.success ↔
      (code = some 0 ∧ 0 < out.length ∧ jsIncludes out "Error" = false ∧
        jsIncludes out "error" = false) := by
  rw [closeHandler_status]
  by_cases h : successCond code out
  · rw [if_pos h]
    simp only [successCond, Bool.and_eq_true, beq_iff_eq, Bool.not_eq_true',
      decide_eq_true_eq] at h
    exact ⟨fun _ => ⟨h.1.1.1, h.1.1.2, h.1.2, h.2⟩, fun _ => rfl⟩
  · rw [if_neg h]
    constructor
    · intro hc
      exact absurd hc (by simp)
    · rintro ⟨h1, h2, h3, h4⟩
      exact absurd (by simp [successCond, h1, h2, h3, h4]) h

/-- The failure branch of the close handler picks exactly the `errorType`
label assigned by the priority scan of stderr+stdout that the spec gives. -/
theorem errTypeOf_eq_spec (c : String) (code : Option Int) :
    (errTypeOf c code).1 = kindErrorType (specScanKind c code) := by
  simp only [errTypeOf, specScanKind, matchesAny, List.any_cons, List.any_nil,
    Bool.or_false, Bool.or_assoc]
  split_ifs <;> rfl

/-- C5 (amended): in the CLI batch variant, for every probe resolved by the
close handler with a non-success classification, the error kind is chosen by
scanning stderr concatenated with stdout, first match winning, in the
priority order authentication/unauthorized/401, rate limit/429,
permission/403, connection/network, model/not found, then non-zero exit code,
else unknown.  (The web-server variant stops after connection/network.) -/
theorem c5_failed_classification (m out err : String) (code : Option Int) (t : Nat)
    (h : (closeHandler m out err code t).status = ProbeStatus.failed) :
    (closeHandler m out err code t).errorType =
      some (kindErrorType (specScanKind (err ++ out) code)) := by
  by_cases hs : successCond code out
  · rw [closeHandler_status, if_pos hs] at h
    exact absurd h (by simp)
  · unfold closeHandler
    rw [if_neg hs]
    exact congrArg some (errTypeOf_eq_spec (err ++ out) code)

/-- C5 (counterexample): the web-server probe variant stops its scan after
the connection/network group: a failed probe whose stderr says "model not
found" with exit code 1 is classified Unknown, not ModelUnavailable or
ProcessError, so the claimed priority order does not hold for every failed
probe of this repository. -/
theorem c5_counterexample :
    (closeHandlerWeb sonnetModel "" "model not found" (some 1) 5).status =
        ProbeStatus.failed ∧
      (closeHandlerWeb sonnetModel "" "model not found" (some 1) 5).errorType ≠
        some (kindErrorType (specScanKind ("model not found" ++ "") (some 1))) := by
  constructor
  · decide
  · decide

/-- C5 (witness): the classification theorem applied to a concrete failed
probe whose stderr mentions "401 unauthorized". -/
theorem c5_witness :
    (closeHandler sonnetModel "" "boom 401 unauthorized" (some 1) 5).status =
        ProbeStatus.failed ∧
      (closeHandler sonnetModel "" "boom 401 unauthorized" (some 1) 5).errorType =
        some (kindErrorType (specScanKind ("boom 401 unauthorized" ++ "") (some 1))) :=
  ⟨by decide,
    c5_failed_classification sonnetModel "" "boom 401 unauthorized" (some 1) 5
      (by decide)⟩

/-! ### Single-resolution theorems (C2, C9) -/

/-- Resolutions distribute over action concatenation. -/
theorem resolutions_append (a b : List PAction) :
    resolutions (a ++ b) = resolutions a ++ resolutions b :=
  List.filterMap_append a b _

/-- Once the `hasResponded` flag is set, a handler neither clears it nor
resolves again. -/
theorem pstep_responded (m : String) (st : PState) (e : PEvent)
    (h : st.hasResponded = true) :
    (pstep m st e).1.hasResponded = true ∧ resolutions (pstep m st e).2 = [] := by
  cases e <;> simp [pstep, h, resolutions]

/-- Once resolved, a whole event run keeps the flag and never resolves again. -/
theorem prun_responded (m : String) (t : List PEvent) : ∀ st : PState,
    st.hasResponded = true →
    (prun m st t).1.hasResponded = true ∧ resolutions (prun m st t).2 = [] := by
  induction t with
  | nil =>
    intro st h
    simpa [prun, resolutions] using h
  | cons e rest ih =>
    intro st h
    have hp := pstep_responded m st e h
    have hrest := ih _ hp.1
    simp only [prun]
    exact ⟨hrest.1, by rw [resolutions_append, hp.2, hrest.2]; rfl⟩

/-- A resolving handler that wins the race sets the flag and resolves once. -/
theorem pstep_resolving (m : String) (st : PState) (e : PEvent)
    (h : st.hasResponded = false) (hr : isResolving e = true) :
    (pstep m st e).1.hasResponded = true ∧
      (resolutions (pstep m st e).2).length = 1 := by
  cases e <;> simp_all [pstep, resolutions, isResolving]

/-- A non-resolving handler leaves the flag clear and resolves nothing. -/
theorem pstep_nonresolving (m : String) (st : PState) (e : PEvent)
    (h : st.hasResponded = false) (hr : isResolving e = false) :
    (pstep m st e).1.hasResponded = false ∧ resolutions (pstep m st e).2 = [] := by
  cases e <;> simp_all [pstep, resolutions, isResolving]

/-- Resolution count of a run started before any resolution: one when some
resolving event is delivered, zero otherwise. -/
theorem prun_resolution_count (m : String) (t : List PEvent) : ∀ st : PState,
    st.hasResponded = false →
    (resolutions (prun m st t).2).length = if t.any isResolving then 1 else 0 := by
  induction t with
  | nil =>
    intro st _
    simp [prun, resolutions]
  | cons e rest ih =>
    intro st h
    by_cases hr : isResolving e = true
    · have hp := pstep_resolving m st e h hr
      have hrest := prun_responded m rest _ hp.1
      simp only [prun, List.any_cons, hr, Bool.true_or, if_pos]
      rw [resolutions_append, List.length_append, hp.2, hrest.2]
      rfl
    · have hrf : isResolving e = false := by simpa using hr
      have hp := pstep_nonresolving m st e h hrf
      simp only [prun, List.any_cons, hrf, Bool.false_or]
      rw [resolutions_append, List.length_append, hp.2]
      simpa using ih _ hp.1

/-- C2: every probe run resolves exactly once.  Any event sequence containing
at least one resolving event (timer fire, child exit, or spawn error — and the
timer always eventually fires unless cancelled by one of the others) produces
exactly one resolution: never zero, never two, even when the child exits at or
after the timeout instant. -/
theorem c2_exactly_one_resolution (m : String) (t : List PEvent)
    (h : t.any isResolving = true) :
    (resolutions (prun m initPState t).2).length = 1 := by
  rw [prun_resolution_count m t initPState rfl, if_pos h]

/-- C2 (witness): a child that exits just after the timeout fired still yields
exactly one resolution. -/
theorem c2_witness :
    ([PEvent.timerFire 60000, PEvent.closeEvt (some 0) 60100].any isResolving = true)
      ∧ (resolutions (prun sonnetModel initPState
          [PEvent.timerFire 60000, PEvent.closeEvt (some 0) 60100]).2).length = 1 :=
  ⟨by decide,
    c2_exactly_one_resolution sonnetModel
      [PEvent.timerFire 60000, PEvent.closeEvt (some 0) 60100] (by decide)⟩

/-- Splitting a run at a concatenation point. -/
theorem prun_append (m : String) (t1 t2 : List PEvent) : ∀ st : PState,
    prun m st (t1 ++ t2) =
      ((prun m (prun m st t1).1 t2).1,
        (prun m st t1).2 ++ (prun m (prun m st t1).1 t2).2) := by
  induction t1 with
  | nil =>
    intro st
    simp [prun]
  | cons e rest ih =>
    intro st
    simp [prun, ih, List.append_assoc]

/-- The close handler always leaves the flag set. -/
theorem pstep_close_flag (m : String) (st : PState) (code : Option Int) (now : Nat) :
    (pstep m st (PEvent.closeEvt code now)).1.hasResponded = true := by
  by_cases h : st.hasResponded = true <;> simp [pstep, h]

/-- C9 (amended): in the CLI batch variant, when the child has already exited
(its close event was delivered) before the one-second warm-up timer fires,
the stdin warm-up handler is a no-op: removing it from the event sequence
changes neither the final state nor the emitted actions, so no write happens,
no error is raised, and the probe result is unchanged.  (The web-server
variant writes unconditionally.) -/
theorem c9_stdin_write_skipped (m : String) (pre mid post : List PEvent)
    (code : Option Int) (now : Nat) :
    prun m initPState
        (pre ++ PEvent.closeEvt code now :: (mid ++ PEvent.stdinTimer :: post)) =
      prun m initPState (pre ++ PEvent.closeEvt code now :: (mid ++ post)) := by
  have key : ∀ st : PState,
      prun m st (PEvent.closeEvt code now :: (mid ++ PEvent.stdinTimer :: post)) =
        prun m st (PEvent.closeEvt code now :: (mid ++ post)) := by
    intro st
    have h2 : ∀ st2 : PState, st2.hasResponded = true →
        prun m st2 (mid ++ PEvent.stdinTimer :: post) = prun m st2 (mid ++ post) := by
      intro st2 h2f
      have hmidflag := (prun_responded m mid st2 h2f).1
      have hskip : prun m (prun m st2 mid).1 (PEvent.stdinTimer :: post) =
          ((prun m (prun m st2 mid).1 post).1,
            [] ++ (prun m (prun m st2 mid).1 post).2) := by
        simp only [prun, pstep, hmidflag]
        simp
      rw [prun_append, prun_append, hskip]
      simp
    simp only [prun]
    rw [h2 _ (pstep_close_flag m st code now)]
  rw [prun_append, prun_append, key]

/-- C9 (counterexample): in the web-server probe variant the warm-up callback
has no guard, so even after the child has exited (close event delivered) the
stdin write still happens: the write is not skipped there. -/
theorem c9_counterexample :
    PAction.writeStdin ∈
      (prunWeb sonnetModel initPState
        [PEvent.closeEvt (some 0) 50, PEvent.stdinTimer]).2 := by
  decide

/-! ### Account aggregation theorems (C3, C4) -/

/-- C3: the secondary (Opus) result is Skipped iff the primary (Sonnet) result
is not Success — given that a real secondary probe never resolves with status
Skipped — and in the skipped case no child process is spawned for the
secondary model. -/
theorem c3_secondary_skipped_iff (account : Account) (probe : String → ProbeResult)
    (h : (probe opusModel).status ≠ ProbeStatus.skipped) :
    ((testAccountDirect account probe).1.opus41.status = ProbeStatus.skipped ↔
        (testAccountDirect account probe).1.sonnet4.status ≠ ProbeStatus.success) ∧
      ((testAccountDirect account probe).1.sonnet4.status ≠ ProbeStatus.success →
        opusModel ∉ (testAccountDirect account probe).2) := by
  by_cases hs : (probe sonnetModel).status = ProbeStatus.success
  · refine ⟨?_, ?_⟩
    · simp [testAccountDirect, hs, h]
    · intro hc
      simp [testAccountDirect, hs] at hc
  · refine ⟨?_, ?_⟩
    · simp [testAccountDirect, hs, skippedOpusResult]
    · intro _
      simp only [testAccountDirect, if_neg hs]
      decide

/-- C3 (witness): the skipped-iff property at a concrete account whose probes
all fail. -/
theorem c3_witness :
    ((fun _ : String => timeoutResult opusModel 100) opusModel).status ≠
        ProbeStatus.skipped ∧
      (((testAccountDirect ⟨"a", "u", "k"⟩ (fun _ => timeoutResult opusModel 100)).1.opus41.status =
            ProbeStatus.skipped ↔
          (testAccountDirect ⟨"a", "u", "k"⟩ (fun _ => timeoutResult opusModel 100)).1.sonnet4.status ≠
            ProbeStatus.success) ∧
        ((testAccountDirect ⟨"a", "u", "k"⟩ (fun _ => timeoutResult opusModel 100)).1.sonnet4.status ≠
            ProbeStatus.success →
          opusModel ∉ (testAccountDirect ⟨"a", "u", "k"⟩ (fun _ => timeoutResult opusModel 100)).2)) :=
  ⟨by decide, c3_secondary_skipped_iff ⟨"a", "u", "k"⟩ _ (by decide)⟩

/-- C4: the overall status is a pure function of the two probe statuses, and
only the combinations (Success, Success) → both-succeeded,
(Success, Failed) → primary-only and (Failed, Skipped) → both-failed are
reachable — given that spawned probes resolve with Success or Failed. -/
theorem c4_overall_status (account : Account) (probe : String → ProbeResult)
    (h : ∀ mdl, (probe mdl).status = ProbeStatus.success ∨
      (probe mdl).status = ProbeStatus.failed) :
    ((testAccountDirect account probe).1.sonnet4.status = ProbeStatus.success ∧
        (testAccountDirect account probe).1.opus41.status = ProbeStatus.success ∧
        (testAccountDirect account probe).1.overallStatus = Overall.both_success) ∨
      ((testAccountDirect account probe).1.sonnet4.status = ProbeStatus.success ∧
        (testAccountDirect account probe).1.opus41.status = ProbeStatus.failed ∧
        (testAccountDirect account probe).1.overallStatus = Overall.sonnet_only) ∨
      ((testAccountDirect account probe).1.sonnet4.status = ProbeStatus.failed ∧
        (testAccountDirect account probe).1.opus41.status = ProbeStatus.skipped ∧
        (testAccountDirect account probe).1.overallStatus = Overall.both_failed) := by
  by_cases hs : (probe sonnetModel).status = ProbeStatus.success
  · by_cases ho : (probe opusModel).status = ProbeStatus.success
    · exact Or.inl (by simp [testAccountDirect, hs, ho])
    · have hf : (probe opusModel).status = ProbeStatus.failed :=
        (h opusModel).resolve_left ho
      exact Or.inr (Or.inl (by simp [testAccountDirect, hs, hf, ho]))
  · have hf : (probe sonnetModel).status = ProbeStatus.failed :=
      (h sonnetModel).resolve_left hs
    exact Or.inr (Or.inr (by simp [testAccountDirect, hs, hf, skippedOpusResult]))

/-- A concrete successful probe resolution, used by the C4 witness. -/
theorem okProbe_status :
    (closeHandler sonnetModel "ok" "" (some 0) 100).status = ProbeStatus.success := by
  decide

/-- C4 (witness): the reachable-combinations theorem at a concrete account
whose probes all succeed. -/
theorem c4_witness :
    (∀ mdl : String,
        ((fun _ : String => closeHandler sonnetModel "ok" "" (some 0) 100) mdl).status =
            ProbeStatus.success ∨
          ((fun _ : String => closeHandler sonnetModel "ok" "" (some 0) 100) mdl).status =
            ProbeStatus.failed) ∧
      (((testAccountDirect ⟨"a", "u", "k"⟩
            (fun _ => closeHandler sonnetModel "ok" "" (some 0) 100)).1.sonnet4.status =
            ProbeStatus.success ∧
          (testAccountDirect ⟨"a", "u", "k"⟩
            (fun _ => closeHandler sonnetModel "ok" "" (some 0) 100)).1.opus41.status =
            ProbeStatus.success ∧
          (testAccountDirect ⟨"a", "u", "k"⟩
            (fun _ => closeHandler sonnetModel "ok" "" (some 0) 100)).1.overallStatus =
            Overall.both_success) ∨
        ((testAccountDirect ⟨"a", "u", "k"⟩
            (fun _ => closeHandler sonnetModel "ok" "" (some 0) 100)).1.sonnet4.status =
            ProbeStatus.success ∧
          (testAccountDirect ⟨"a", "u", "k"⟩
            (fun _ => closeHandler sonnetModel "ok" "" (some 0) 100)).1.opus41.status =
            ProbeStatus.failed ∧
          (testAccountDirect ⟨"a", "u", "k"⟩
            (fun _ => closeHandler sonnetModel "ok" "" (some 0) 100)).1.overallStatus =
            Overall.sonnet_only) ∨
        ((testAccountDirect ⟨"a", "u", "k"⟩
            (fun _ => closeHandler sonnetModel "ok" "" (some 0) 100)).1.sonnet4.status =
            ProbeStatus.failed ∧
          (testAccountDirect ⟨"a", "u", "k"⟩
            (fun _ => closeHandler sonnetModel "ok" "" (some 0) 100)).1.opus41.status =
            ProbeStatus.skipped ∧
          (testAccountDirect ⟨"a", "u", "k"⟩
            (fun _ => closeHandler sonnetModel "ok" "" (some 0) 100)).1.overallStatus =
            Overall.both_failed)) :=
  ⟨fun _ => Or.inl okProbe_status,
    c4_overall_status ⟨"a", "u", "k"⟩ _ (fun _ => Or.inl okProbe_status)⟩

/-! ### Batch execution theorems (C6) -/

/-- Chunking the empty list yields no chunks, for any fuel. -/
theorem buildChunksAux_nil (P fuel : Nat) :
    buildChunksAux P fuel ([] : List α) = [] := by
  cases fuel <;> rfl

/-- With a positive bound and enough fuel, the chunks concatenate back to the
input list. -/
theorem buildChunksAux_flatten {P : Nat} (hP : 0 < P) :
    ∀ (fuel : Nat) (l : List α), l.length ≤ fuel →
      (buildChunksAux P fuel l).flatten = l := by
  intro fuel
  induction fuel with
  | zero =>
    intro l hl
    have : l = [] := List.eq_nil_of_length_eq_zero (Nat.le_zero.mp hl)
    subst this
    rfl
  | succ n ih =>
    intro l hl
    cases l with
    | nil => rfl
    | cons x xs =>
      simp only [buildChunksAux, List.flatten_cons]
      have hfuel : (List.drop P (x :: xs)).length ≤ n := by
        rw [List.length_drop]
        simp only [List.length_cons] at hl ⊢
        omega
      rw [ih (List.drop P (x :: xs)) hfuel]
      exact List.take_append_drop P (x :: xs)

/-- C6 part: the chunk list partitions the account list. -/
theorem buildChunks_flatten {P : Nat} (hP : 0 < P) (l : List α) :
    (buildChunks l P).flatten = l :=
  buildChunksAux_flatten hP l.length l le_rfl

/-- Every chunk is non-empty and no longer than the bound. -/
theorem buildChunksAux_sizes {P : Nat} (hP : 0 < P) :
    ∀ (fuel : Nat) (l : List α), ∀ c ∈ buildChunksAux P fuel l,
      0 < c.length ∧ c.length ≤ P := by
  intro fuel
  induction fuel with
  | zero =>
    intro l c hc
    simp [buildChunksAux] at hc
  | succ n ih =>
    intro l c hc
    cases l with
    | nil => simp [buildChunksAux_nil] at hc
    | cons x xs =>
      simp only [buildChunksAux, List.mem_cons] at hc
      rcases hc with rfl | hc
      · constructor
        · simp [List.length_take]
          omega
        · simp [List.length_take]
      · exact ih _ c hc

/-- Every chunk is non-empty and no longer than the bound. -/
theorem buildChunks_sizes {P : Nat} (hP : 0 < P) (l : List α) :
    ∀ c ∈ buildChunks l P, 0 < c.length ∧ c.length ≤ P :=
  buildChunksAux_sizes hP l.length l

/-- Every chunk except possibly the last has length exactly `P`. -/
theorem buildChunksAux_dropLast {P : Nat} (_hP : 0 < P) :
    ∀ (fuel : Nat) (l : List α), ∀ c ∈ (buildChunksAux P fuel l).dropLast,
      c.length = P := by
  intro fuel
  induction fuel with
  | zero =>
    intro l c hc
    simp [buildChunksAux] at hc
  | succ n ih =>
    intro l c hc
    cases l with
    | nil => simp [buildChunksAux_nil] at hc
    | cons x xs =>
      simp only [buildChunksAux] at hc
      by_cases hrest : buildChunksAux P n (List.drop P (x :: xs)) = []
      · rw [hrest] at hc
        simp at hc
      · rw [List.dropLast_cons_of_ne_nil hrest, List.mem_cons] at hc
        rcases hc with rfl | hc
        · have hdrop : List.drop P (x :: xs) ≠ [] := by
            intro hd
            exact hrest (hd ▸ buildChunksAux_nil P n)
          have hlt : P < (x :: xs).length := by
            by_contra hle
            exact hdrop (List.drop_eq_nil_of_le (by omega))
          simp only [List.length_take, List.length_cons] at hlt ⊢
          omega
        · exact ih _ c hc

/-- Positional lookup is determined by membership when arrival indices are
distinct. -/
theorem jlookup_eq_some_iff {l : List (Nat × β)} (hnd : (l.map Prod.fst).Nodup)
    (j : Nat) (v : β) : jlookup j l = some v ↔ (j, v) ∈ l := by
  induction l with
  | nil => simp [jlookup]
  | cons p rest ih =>
    obtain ⟨i, b⟩ := p
    simp only [List.map_cons, List.nodup_cons] at hnd
    by_cases hij : i = j
    · subst hij
      have hj : jlookup i ((i, b) :: rest) = some b := by simp [jlookup]
      rw [hj]
      constructor
      · intro h
        have hvb : b = v := Option.some_inj.mp h
        subst hvb
        exact List.mem_cons_self _ _
      · intro h
        rcases List.mem_cons.mp h with heq | hmem
        · exact congrArg some (congrArg Prod.snd heq).symm
        · exact absurd (List.mem_map_of_mem Prod.fst hmem) hnd.1
    · simp only [jlookup, if_neg hij, ih hnd.2, List.mem_cons]
      constructor
      · exact Or.inr
      · rintro (heq | hmem)
        · exact absurd (congrArg Prod.fst heq).symm hij
        · exact hmem

/-- Looking an index up in any permutation of an enumerated result list gives
the positional element: completion order is irrelevant. -/
theorem jlookup_perm_enum {arr : List (Nat × β)} {mres : List β}
    (hp : arr.Perm mres.enum) (j : Nat) : jlookup j arr = mres[j]? := by
  have hnd : (arr.map Prod.fst).Nodup := by
    have hmap := hp.map Prod.fst
    rw [List.enum_map_fst] at hmap
    exact hmap.nodup_iff.mpr (List.nodup_range _)
  cases hg : mres[j]? with
  | some v =>
    have hmem : (j, v) ∈ arr :=
      hp.mem_iff.mpr (List.mem_enum_iff_getElem?.mpr hg)
    exact (jlookup_eq_some_iff hnd j v).mpr hmem
  | none =>
    cases hv : jlookup j arr with
    | none => rfl
    | some v =>
      have hmem := (jlookup_eq_some_iff hnd j v).mp hv
      have := List.mem_enum_iff_getElem?.mp (hp.mem_iff.mp hmem)
      rw [hg] at this
      cases this

/-- Collecting every position of a list through `getElem?` returns the list. -/
theorem map_getElem?_range (l : List β) :
    (List.range l.length).map (fun j => l[j]?) = l.map some := by
  induction l with
  | nil => rfl
  | cons x xs ih =>
    rw [List.length_cons, List.range_succ_eq_map, List.map_cons, List.map_map,
      List.map_cons]
    congr 1
    · simp
    · rw [← ih]
      exact List.map_congr_left fun j _ => by simp

/-- The promise combinator returns the results of a chunk in input order,
whatever the completion order was. -/
theorem promiseAll_perm (f : α → β) (chunk : List α) (arr : List (Nat × β))
    (hp : arr.Perm (chunkArrival f chunk)) :
    promiseAll chunk.length arr = chunk.map (fun a => some (f a)) := by
  unfold chunkArrival at hp
  calc (List.range chunk.length).map (fun j => jlookup j arr)
      = (List.range (chunk.map f).length).map (fun j => (chunk.map f)[j]?) := by
        rw [List.length_map]
        exact List.map_congr_left fun j _ => jlookup_perm_enum hp j
    _ = (chunk.map f).map some := map_getElem?_range _
    _ = chunk.map (fun a => some (f a)) := by
        rw [List.map_map]
        rfl

/-- The sequential chunk loop produces the flattened in-order results. -/
theorem batchRun_eq (f : α → β) {chunks : List (List α)}
    {arrivals : List (List (Nat × β))}
    (h : List.Forall₂ (fun c arr => arr.Perm (chunkArrival f c)) chunks arrivals) :
    batchRun chunks arrivals = chunks.flatten.map (fun a => some (f a)) := by
  induction h with
  | nil => rfl
  | @cons c arr cs arrs hrel _ ih =>
    show (List.zipWith _ (c :: cs) (arr :: arrs)).flatten = _
    rw [List.zipWith_cons_cons, List.flatten_cons, List.flatten_cons,
      List.map_append, promiseAll_perm f c arr hrel]
    exact congrArg _ ih

/-- A constant-tag list is trivially nondecreasing. -/
theorem pairwise_le_const (k : Nat) (c : List α) :
    (c.map (fun _ => k)).Pairwise (fun a b : Nat => a ≤ b) := by
  induction c with
  | nil => exact List.Pairwise.nil
  | cons y ys ihc =>
    exact List.Pairwise.cons (fun b hb => by
      rcases List.mem_map.mp hb with ⟨_, _, rfl⟩
      exact le_refl k) ihc

/-- Tags in a chunk trace are nondecreasing and bounded below by the start
index. -/
theorem chunkTraceAux_tags : ∀ (chunks : List (List α)) (k : Nat),
    ((chunkTraceAux k chunks).map Prod.fst).Pairwise (· ≤ ·) ∧
      ∀ i ∈ (chunkTraceAux k chunks).map Prod.fst, k ≤ i := by
  intro chunks
  induction chunks with
  | nil => intro k; simp [chunkTraceAux]
  | cons c rest ih =>
    intro k
    obtain ⟨ihp, ihb⟩ := ih (k + 1)
    have hconst : (c.map (fun a => (k, a))).map Prod.fst = c.map (fun _ => k) := by
      rw [List.map_map]
      rfl
    have hconstPair := pairwise_le_const k c
    constructor
    · simp only [chunkTraceAux, List.map_append]
      rw [List.pairwise_append, hconst]
      refine ⟨hconstPair, ihp, ?_⟩
      intro a ha b hb
      rcases List.mem_map.mp ha with ⟨_, _, rfl⟩
      exact le_trans (Nat.le_succ k) (ihb b hb)
    · intro i hi
      simp only [chunkTraceAux, List.map_append, List.mem_append] at hi
      rcases hi with hi | hi
      · rw [hconst] at hi
        rcases List.mem_map.mp hi with ⟨_, _, rfl⟩
        exact le_refl k
      · exact le_trans (Nat.le_succ k) (ihb i hi)

/-- C6: with a positive concurrency bound `P`, batch execution partitions the
account list into ordered chunks of size `P` (the last possibly shorter but
non-empty), chunk `N+1` work never precedes chunk `N` work in the execution
trace, and for every within-chunk completion order the collected result list
follows the input account order. -/
theorem c6_batch_order (accounts : List Account) (P : Nat)
    (f : Account → AccountResult) (arrivals : List (List (Nat × AccountResult)))
    (hP : 0 < P)
    (harr : List.Forall₂ (fun c arr => arr.Perm (chunkArrival f c))
      (buildChunks accounts P) arrivals) :
    (buildChunks accounts P).flatten = accounts ∧
      (∀ c ∈ (buildChunks accounts P).dropLast, c.length = P) ∧
      (∀ c ∈ buildChunks accounts P, 0 < c.length ∧ c.length ≤ P) ∧
      ((chunkTrace (buildChunks accounts P)).map Prod.fst).Pairwise (· ≤ ·) ∧
      batchRun (buildChunks accounts P) arrivals =
        accounts.map (fun a => some (f a)) := by
  refine ⟨buildChunks_flatten hP accounts,
    buildChunksAux_dropLast hP accounts.length accounts,
    buildChunks_sizes hP accounts,
    (chunkTraceAux_tags (buildChunks accounts P) 0).1, ?_⟩
  rw [batchRun_eq f harr, buildChunks_flatten hP accounts]

/-- C6 (witness): three accounts with bound 2 and a reversed completion order
inside the first chunk still produce the input-ordered result list. -/
theorem c6_witness :
    (0 < 2) ∧
      List.Forall₂ (fun c arr => arr.Perm (chunkArrival witF c))
        (buildChunks witAccounts 2) witArrivals ∧
      ((buildChunks witAccounts 2).flatten = witAccounts ∧
        (∀ c ∈ (buildChunks witAccounts 2).dropLast, c.length = 2) ∧
        (∀ c ∈ buildChunks witAccounts 2, 0 < c.length ∧ c.length ≤ 2) ∧
        ((chunkTrace (buildChunks witAccounts 2)).map Prod.fst).Pairwise (· ≤ ·) ∧
        batchRun (buildChunks witAccounts 2) witArrivals =
          witAccounts.map (fun a => some (witF a))) := by
  have hforall : List.Forall₂ (fun c arr => arr.Perm (chunkArrival witF c))
      (buildChunks witAccounts 2) witArrivals := by decide
  exact ⟨by decide, hforall,
    c6_batch_order witAccounts 2 witF witArrivals (by decide) hforall⟩

/-! ### Credential exposure theorems (C7) -/

/-- A pattern beginning a list is found at the front. -/
theorem subAt_self_append (pat b : List Char) : subAt pat (pat ++ b) = true := by
  induction pat with
  | nil => rfl
  | cons p ps ih => simp [subAt, ih]

/-- A match at the front is an occurrence. -/
theorem occursIn_of_subAt (pat hay : List Char) (h : subAt pat hay = true) :
    occursIn pat hay = true := by
  cases hay with
  | nil => simpa [occursIn] using h
  | cons x t => simp [occursIn, h]

/-- Occurrences survive prepending. -/
theorem occursIn_append_left (pat a hay : List Char)
    (h : occursIn pat hay = true) : occursIn pat (a ++ hay) = true := by
  induction a with
  | nil => simpa using h
  | cons x t ih => simp [occursIn, ih]

/-- A pattern spliced into the middle of a list occurs in it. -/
theorem occursIn_mid (a pat b : List Char) :
    occursIn pat (a ++ (pat ++ b)) = true :=
  occursIn_append_left pat a (pat ++ b)
    (occursIn_of_subAt pat (pat ++ b) (subAt_self_append pat b))

/-- Every CSV row written by `saveResults` contains the full credential. -/
theorem csvRow_contains_fullKey (r : AccountResult) :
    jsIncludes (csvRow r) r.fullKey = true := by
  unfold jsIncludes csvRow
  simp only [String.data_append, List.append_assoc]
  apply occursIn_append_left
  apply occursIn_append_left
  apply occursIn_append_left
  apply occursIn_append_left
  unfold quoteField
  by_cases h : jsIncludes r.fullKey "," = true
  · rw [if_pos h]
    simp only [String.data_append, List.append_assoc]
    apply occursIn_append_left
    exact occursIn_of_subAt _ _ (subAt_self_append _ _)
  · rw [if_neg h]
    exact occursIn_of_subAt _ _ (subAt_self_append _ _)

/-- C7 (counterexample): a saved report row contains the full account
credential verbatim, so the full credential does surface in persisted output. -/
theorem c7_counterexample :
    jsIncludes
        (csvRow (testAccountDirect ⟨"acct", "https://u.example", "sk-secret-full-key"⟩
          (fun _ => timeoutResult opusModel 1)).1)
        "sk-secret-full-key" = true := by
  decide

/-- C7 (amended): the in-memory `key` field shown in logs carries only the
first ten characters of the credential plus "...", but the saved CSV report
row always contains the full credential. -/
theorem c7_amended (account : Account) (probe : String → ProbeResult) :
    (testAccountDirect account probe).1.key = account.key.take 10 ++ "..." ∧
      jsIncludes (csvRow (testAccountDirect account probe).1) account.key = true := by
  have hfields : (testAccountDirect account probe).1.key =
      account.key.take 10 ++ "..." ∧
      (testAccountDirect account probe).1.fullKey = account.key := by
    by_cases hs : (probe sonnetModel).status = ProbeStatus.success <;>
      simp [testAccountDirect, hs]
  refine ⟨hfields.1, ?_⟩
  rw [← hfields.2]
  exact csvRow_contains_fullKey _

/-! ### Configuration precedence (C8) -/

/-- C8 (code evaluation): with no `--dingtalk-webhook` argument and the
`DINGTALK_WEBHOOK` environment variable set, `parseArgs` keeps the compiled
default webhook: the environment fallback is dead because the option is
initialized to a truthy default. -/
theorem c8_env_webhook_ignored :
    (parseArgs ["accounts.csv"] (some "https://example.com/hook") none).map
        (fun o => o.dingTalkWebhook) = some defaultDingTalkWebhook ∧
      defaultDingTalkWebhook ≠ "https://example.com/hook" := by
  constructor
  · decide
  · decide

/-! ### Notification truncation theorems (C10) -/

/-- Fully-failed entry lines expose exactly the mapped account names. -/
theorem filterMap_failedEntry (l : List AccountResult) :
    ((l.map (fun a => NLine.failedEntry a.name a.url (failedErrMsg a))).filterMap
      failedEntryName) = l.map (fun a => a.name) := by
  induction l with
  | nil => rfl
  | cons x xs ih => simp [failedEntryName, ih]

/-- Partial-failure entry lines expose exactly the mapped account names. -/
theorem filterMap_sonnetOnlyEntry (l : List AccountResult) :
    ((l.map (fun a => NLine.sonnetOnlyEntry a.name (opusErrMsg a))).filterMap
      sonnetOnlyEntryName) = l.map (fun a => a.name) := by
  induction l with
  | nil => rfl
  | cons x xs ih => simp [sonnetOnlyEntryName, ih]

/-- Partial-failure entries contribute no fully-failed names. -/
theorem filterMap_failedEntryName_sonnet (l : List AccountResult) :
    ((l.map (fun a => NLine.sonnetOnlyEntry a.name (opusErrMsg a))).filterMap
      failedEntryName) = [] := by
  induction l with
  | nil => rfl
  | cons x xs ih => simp [failedEntryName, ih]

/-- Fully-failed entries contribute no partial-failure names. -/
theorem filterMap_sonnetOnlyEntryName_failed (l : List AccountResult) :
    ((l.map (fun a => NLine.failedEntry a.name a.url (failedErrMsg a))).filterMap
      sonnetOnlyEntryName) = [] := by
  induction l with
  | nil => rfl
  | cons x xs ih => simp [sonnetOnlyEntryName, ih]

/-- Truncated fully-failed entry lines expose the truncated name list. -/
theorem filterMap_failedEntry_take (l : List AccountResult) (k : Nat) :
    ((List.take k (l.map (fun a => NLine.failedEntry a.name a.url (failedErrMsg a)))).filterMap
      failedEntryName) = List.take k (l.map (fun a => a.name)) := by
  rw [← List.map_take, ← List.map_take, filterMap_failedEntry]

/-- Truncated partial-failure entry lines expose the truncated name list. -/
theorem filterMap_sonnetOnlyEntry_take (l : List AccountResult) (k : Nat) :
    ((List.take k (l.map (fun a => NLine.sonnetOnlyEntry a.name (opusErrMsg a)))).filterMap
      sonnetOnlyEntryName) = List.take k (l.map (fun a => a.name)) := by
  rw [← List.map_take, ← List.map_take, filterMap_sonnetOnlyEntry]

/-- Truncated partial-failure entries contribute no fully-failed names. -/
theorem filterMap_failedEntryName_sonnet_take (l : List AccountResult) (k : Nat) :
    ((List.take k (l.map (fun a => NLine.sonnetOnlyEntry a.name (opusErrMsg a)))).filterMap
      failedEntryName) = [] := by
  rw [← List.map_take, filterMap_failedEntryName_sonnet]

/-- Truncated fully-failed entries contribute no partial-failure names. -/
theorem filterMap_sonnetOnlyEntryName_failed_take (l : List AccountResult) (k : Nat) :
    ((List.take k (l.map (fun a => NLine.failedEntry a.name a.url (failedErrMsg a)))).filterMap
      sonnetOnlyEntryName) = [] := by
  rw [← List.map_take, filterMap_sonnetOnlyEntryName_failed]

/-- A fully-failed remainder counter is never an entry line. -/
theorem failedRemainder_notin_failedEntries (l : List AccountResult) (k n : Nat) :
    NLine.failedRemainder n ∉
      List.take k (l.map (fun a => NLine.failedEntry a.name a.url (failedErrMsg a))) := by
  intro h
  rcases List.mem_map.mp (List.mem_of_mem_take h) with ⟨a, _, heq⟩
  simp at heq

/-- A fully-failed remainder counter is never a partial-failure entry line. -/
theorem failedRemainder_notin_sonnetEntries (l : List AccountResult) (k n : Nat) :
    NLine.failedRemainder n ∉
      List.take k (l.map (fun a => NLine.sonnetOnlyEntry a.name (opusErrMsg a))) := by
  intro h
  rcases List.mem_map.mp (List.mem_of_mem_take h) with ⟨a, _, heq⟩
  simp at heq

/-- A partial-failure remainder counter is never a fully-failed entry line. -/
theorem sonnetRemainder_notin_failedEntries (l : List AccountResult) (k n : Nat) :
    NLine.sonnetOnlyRemainder n ∉
      List.take k (l.map (fun a => NLine.failedEntry a.name a.url (failedErrMsg a))) := by
  intro h
  rcases List.mem_map.mp (List.mem_of_mem_take h) with ⟨a, _, heq⟩
  simp at heq

/-- A partial-failure remainder counter is never a partial-failure entry
line. -/
theorem sonnetRemainder_notin_sonnetEntries (l : List AccountResult) (k n : Nat) :
    NLine.sonnetOnlyRemainder n ∉
      List.take k (l.map (fun a => NLine.sonnetOnlyEntry a.name (opusErrMsg a))) := by
  intro h
  rcases List.mem_map.mp (List.mem_of_mem_take h) with ⟨a, _, heq⟩
  simp at heq

/-- Structure of the assembled message for arbitrary category lists: named
entries are exactly the first 10 of each category, and a remainder counter is
present exactly when a category exceeds 10, carrying the excess count. -/
theorem notificationLinesCore_spec (bf so : List AccountResult) (stats : Stats) :
    ((notificationLinesCore bf so stats).filterMap failedEntryName =
        (bf.take 10).map (fun a => a.name)) ∧
      ((notificationLinesCore bf so stats).filterMap sonnetOnlyEntryName =
        (so.take 10).map (fun a => a.name)) ∧
      (∀ n, NLine.failedRemainder n ∈ notificationLinesCore bf so stats ↔
        (10 < bf.length ∧ n = bf.length - 10)) ∧
      (∀ n, NLine.sonnetOnlyRemainder n ∈ notificationLinesCore bf so stats ↔
        (10 < so.length ∧ n = so.length - 10)) := by
  unfold notificationLinesCore
  by_cases h0 : (bf.length == 0 && so.length == 0) = true
  · rw [if_pos h0]
    simp only [Bool.and_eq_true, beq_iff_eq] at h0
    have hbfnil : bf = [] := List.eq_nil_of_length_eq_zero h0.1
    have hsonil : so = [] := List.eq_nil_of_length_eq_zero h0.2
    subst hbfnil
    subst hsonil
    simp [failedEntryName, sonnetOnlyEntryName]
  · rw [if_neg h0]
    rcases Nat.eq_zero_or_pos bf.length with hbf0 | hbfp
    · have hbfnil : bf = [] := List.eq_nil_of_length_eq_zero hbf0
      subst hbfnil
      have hsop : 0 < so.length := by
        rcases Nat.eq_zero_or_pos so.length with h | h
        · exact absurd (by simp [h]) h0
        · exact h
      by_cases hso10 : 10 < so.length <;>
        simp [hsop, hso10, List.filterMap_append, filterMap_sonnetOnlyEntry,
          filterMap_failedEntryName_sonnet, filterMap_sonnetOnlyEntry_take,
          filterMap_failedEntryName_sonnet_take, failedRemainder_notin_sonnetEntries,
          sonnetRemainder_notin_sonnetEntries, failedEntryName,
          sonnetOnlyEntryName, List.mem_append, List.mem_map]
    · rcases Nat.eq_zero_or_pos so.length with hso0 | hsop
      · have hsonil : so = [] := List.eq_nil_of_length_eq_zero hso0
        subst hsonil
        by_cases hbf10 : 10 < bf.length <;>
          simp [hbfp, hbf10, List.filterMap_append, filterMap_failedEntry,
            filterMap_sonnetOnlyEntryName_failed, filterMap_failedEntry_take,
            filterMap_sonnetOnlyEntryName_failed_take,
            failedRemainder_notin_failedEntries, sonnetRemainder_notin_failedEntries,
            failedEntryName, sonnetOnlyEntryName, List.mem_append, List.mem_map]
      · by_cases hbf10 : 10 < bf.length <;> by_cases hso10 : 10 < so.length <;>
          simp [hbfp, hsop, hbf10, hso10, List.filterMap_append,
            filterMap_failedEntry, filterMap_sonnetOnlyEntry,
            filterMap_failedEntryName_sonnet, filterMap_sonnetOnlyEntryName_failed,
            filterMap_failedEntry_take, filterMap_sonnetOnlyEntry_take,
            filterMap_failedEntryName_sonnet_take,
            filterMap_sonnetOnlyEntryName_failed_take,
            failedRemainder_notin_failedEntries, failedRemainder_notin_sonnetEntries,
            sonnetRemainder_notin_failedEntries, sonnetRemainder_notin_sonnetEntries,
            failedEntryName, sonnetOnlyEntryName, List.mem_append, List.mem_map]

/-- C10: the notification message names at most the first 10 fully-failed and
the first 10 partial-failure accounts; any further accounts appear only
through the remainder counters, which are present exactly when a category
exceeds 10 and carry the excess count. -/
theorem c10_notification_caps (results : List AccountResult) (stats : Stats) :
    ((buildNotificationLines results stats).filterMap failedEntryName =
        ((bothFailedOf results).take 10).map (fun a => a.name)) ∧
      ((buildNotificationLines results stats).filterMap failedEntryName).length ≤ 10 ∧
      ((buildNotificationLines results stats).filterMap sonnetOnlyEntryName =
        ((sonnetOnlyOf results).take 10).map (fun a => a.name)) ∧
      ((buildNotificationLines results stats).filterMap sonnetOnlyEntryName).length ≤ 10 ∧
      (∀ n, NLine.failedRemainder n ∈ buildNotificationLines results stats ↔
        (10 < (bothFailedOf results).length ∧
          n = (bothFailedOf results).length - 10)) ∧
      (∀ n, NLine.sonnetOnlyRemainder n ∈ buildNotificationLines results stats ↔
        (10 < (sonnetOnlyOf results).length ∧
          n = (sonnetOnlyOf results).length - 10)) := by
  unfold buildNotificationLines
  obtain ⟨h1, h2, h3, h4⟩ :=
    notificationLinesCore_spec (bothFailedOf results) (sonnetOnlyOf results) stats
  refine ⟨h1, ?_, h2, ?_, h3, h4⟩
  · rw [h1, List.length_map, List.length_take]
    exact min_le_left _ _
  · rw [h2, List.length_map, List.length_take]
    exact min_le_left _ _

end AccountCheck
